import Mathlib

/-
  Verification of the TCP key-value server (SET/GET/DEL) of this repository.
  The repository holds two variants of the server:
    - src/servidor.c : the basic variant (unbounded sscanf, process exit on
      read failure and on storage-open failure);
    - src/server2.c  : the robust variant (bounded sscanf, per-error messages,
      write_all retry loop, SIGINT shutdown flag).
  Both are shallowly embedded below.  Byte strings are modelled as List Char,
  the filesystem ("one file per key") as a function from key to optional
  content, and environment-dependent outcomes (read results, fopen success,
  write syscall results, accept results and signal arrivals) as explicit
  parameters or event traces.
-/

namespace KV

/-- The NUL byte that terminates C strings. -/
def NUL : Char := '\x00'

/-- C isspace over the default locale, the whitespace set used by sscanf:
space, tab, newline, vertical tab, form feed, carriage return. -/
def isSpace (c : Char) : Bool :=
  c == ' ' || c == '\t' || c == '\n' || c == '\x0b' || c == '\x0c' || c == '\r'

/-- The content of a C string stored in a byte buffer: everything before the
first NUL byte.  sscanf on a buffer only ever sees this prefix. -/
def cstr (l : List Char) : List Char := l.takeWhile (fun c => c ≠ NUL)

/-- Shorthand turning a Lean string literal into the byte list it denotes. -/
def str (s : String) : List Char := s.data

/-- BUFFER_SIZE from both source files. -/
def BUFFER_SIZE : Nat := 1024

/-- Command enumeration of server2.c. -/
inductive Command
  | CMD_INVALID
  | CMD_SET
  | CMD_GET
  | CMD_DEL
deriving DecidableEq, Repr

/-- Request structure of server2.c: command, key (max 99 bytes + NUL),
value (used by SET). -/
structure Request where
  cmd : Command
  key : List Char
  value : List Char
deriving DecidableEq, Repr

/-- The filesystem visible to the server: each valid key names one file.
none means the file does not exist. -/
def Store : Type := List Char → Option (List Char)

/-- Pointwise update of the filesystem at one key. -/
def update (st : Store) (k : List Char) (v : Option (List Char)) : Store :=
  fun x => if x = k then v else st x

/-- clave_valida of server2.c (servidor.c has the same predicate): a key is
valid when it is non-empty and contains no slash, backslash, dot or space. -/
def clave_valida (clave : List Char) : Bool :=
  !clave.isEmpty && clave.all (fun c => !(c == '/' || c == '\\' || c == '.' || c == ' '))

/-- One %Ns directive of sscanf: skip whitespace, then read at most max
non-whitespace bytes.  none models conversion not happening (end of input
reached first), in which case sscanf stops with the current match count. -/
def scanToken (max : Nat) (s : List Char) : Option (List Char × List Char) :=
  let s1 := s.dropWhile isSpace
  if s1 = [] then none
  else
    let tok := (s1.takeWhile (fun c => !isSpace c)).take max
    some (tok, s1.drop tok.length)

/-- One %N[^stop] directive of sscanf: no whitespace skip; read at most max
bytes different from stop.  Fails (none) when no byte is read, which covers
both end of input and an immediate stop byte. -/
def scanSet (max : Nat) (stop : Char) (s : List Char) : Option (List Char × List Char) :=
  let tok := (s.takeWhile (fun c => c ≠ stop)).take max
  if tok = [] then none else some (tok, s.drop tok.length)

/-- Result of the three-directive sscanf of server2.c: the match count and
the three output fields (fields left empty when not converted, matching the
memset-to-zero of the Request before parsing). -/
structure ScanOut where
  matched : Nat
  cmd_str : List Char
  key : List Char
  value : List Char
deriving DecidableEq, Repr

/-- sscanf(buffer, percent-9s percent-99s percent-1023-not-newline) of
server2.c parse_request.  The whitespace directive between the second and
third conversion skips whitespace (newlines included) before the scanset. -/
def sscanf3 (buffer : List Char) : ScanOut :=
  let s := cstr buffer
  match scanToken 9 s with
  | none => ⟨0, [], [], []⟩
  | some (c, r1) =>
    match scanToken 99 r1 with
    | none => ⟨1, c, [], []⟩
    | some (k, r2) =>
      match scanSet 1023 '\n' (r2.dropWhile isSpace) with
      | none => ⟨2, c, k, []⟩
      | some (v, _) => ⟨3, c, k, v⟩

/-- parse_cmd of server2.c: exact, case-sensitive comparison with the three
command words. -/
def parse_cmd (cmd_str : List Char) : Command :=
  if cmd_str = str "SET" then .CMD_SET
  else if cmd_str = str "GET" then .CMD_GET
  else if cmd_str = str "DEL" then .CMD_DEL
  else .CMD_INVALID

/-- parse_request of server2.c.  Error codes as in the source: -2 no
command token, -3 unknown command, -4 missing key, -5 missing value.
(The -1 branch of the source only guards NULL pointers, which have no
counterpart here.) -/
def parse_request (buffer : List Char) : Except Int Request :=
  let r := sscanf3 buffer
  if r.matched < 1 then .error (-2)
  else
    let cmd := parse_cmd r.cmd_str
    if cmd = .CMD_INVALID then .error (-3)
    else if (cmd = .CMD_GET ∨ cmd = .CMD_DEL) ∧ r.matched < 2 then .error (-4)
    else if cmd = .CMD_SET ∧ r.matched < 3 then .error (-5)
    else .ok ⟨cmd, r.key, r.value⟩

/-- handle_set of server2.c.  openOk tells whether fopen(key, "w") succeeds
(an environment fact).  fputs writes the value up to its first NUL byte. -/
def handle_set (openOk : Bool) (req : Request) (st : Store) : List Char × Store :=
  if ¬ clave_valida req.key then (str "ERROR: Clave invalida\n", st)
  else if ¬ openOk then (str "ERROR: No se pudo crear\n", st)
  else (str "OK\n", update st req.key (some (cstr req.value)))

/-- handle_get of server2.c: on a valid existing key, fread reads at most
BUFFER_SIZE-1 bytes, a NUL is appended, and the response is snprintf
"OK" newline percent-.1019s newline truncated to the buffer capacity. -/
def handle_get (req : Request) (st : Store) : List Char :=
  if ¬ clave_valida req.key then str "ERROR: Clave invalida\n"
  else
    match st req.key with
    | none => str "NOTFOUND\n"
    | some content =>
      let contenido := cstr (content.take (BUFFER_SIZE - 1))
      (str "OK\n" ++ contenido.take (BUFFER_SIZE - 5) ++ str "\n").take (BUFFER_SIZE - 1)

/-- handle_del of server2.c: remove the file, ignoring the result, and
always answer OK. -/
def handle_del (req : Request) (st : Store) : List Char × Store :=
  if ¬ clave_valida req.key then (str "ERROR: Clave invalida\n", st)
  else (str "OK\n", update st req.key none)

/-- run_request of server2.c: dispatch a parsed request to its handler. -/
def run_request (openOk : Bool) (req : Request) (st : Store) : List Char × Store :=
  match req.cmd with
  | .CMD_SET => handle_set openOk req st
  | .CMD_GET => (handle_get req st, st)
  | .CMD_DEL => handle_del req st
  | .CMD_INVALID => (str "ERROR: Comando invalido\n", st)

/-- Outcome of serving one accepted connection.  exitProcess records a path
that terminates the whole server process; closed records that only the
client socket was closed, with the response written (if any). -/
inductive ConnResult
  | exitProcess
  | closed (resp : Option (List Char))
deriving DecidableEq, Repr

/-- The parse-failure message selection of server2.c handle_client. -/
def parse_error_msg (code : Int) : List Char :=
  if code = -2 ∨ code = -3 then str "ERROR: Comando invalido\n"
  else if code = -4 then str "ERROR: Falta clave\n"
  else if code = -5 then str "ERROR: Falta valor\n"
  else str "ERROR: Formato invalido\n"

/-- handle_client of server2.c.  readResult is none when read returned
zero or a negative count (the connection is then closed without a
response); otherwise it carries the bytes read. -/
def handle_client (readResult : Option (List Char)) (openOk : Bool) (st : Store) :
    ConnResult × Store :=
  match readResult with
  | none => (.closed none, st)
  | some buffer =>
    match parse_request buffer with
    | .error code => (.closed (some (parse_error_msg code)), st)
    | .ok req =>
      let p := run_request openOk req st
      (.closed (some p.1), p.2)

/-- Unbounded %s directive of the sscanf in servidor.c (no width given in
the format, so the token is taken whole; over-long tokens overflow the
destination arrays in the C source, undefined behaviour not modelled). -/
def scanTokenU (s : List Char) : Option (List Char × List Char) :=
  let s1 := s.dropWhile isSpace
  if s1 = [] then none
  else
    let tok := s1.takeWhile (fun c => !isSpace c)
    some (tok, s1.drop tok.length)

/-- Unbounded %[^stop] directive of the sscanf in servidor.c. -/
def scanSetU (stop : Char) (s : List Char) : Option (List Char × List Char) :=
  let tok := s.takeWhile (fun c => c ≠ stop)
  if tok = [] then none else some (tok, s.drop tok.length)

/-- sscanf(buffer, percent-s percent-s percent-not-newline) of servidor.c
handle_command.  The destination arrays are uninitialized in the source, so
unconverted fields hold indeterminate bytes; the model picks the all-zero
representative (empty strings). -/
def sscanf3_servidor (buffer : List Char) : ScanOut :=
  let s := cstr buffer
  match scanTokenU s with
  | none => ⟨0, [], [], []⟩
  | some (c, r1) =>
    match scanTokenU r1 with
    | none => ⟨1, c, [], []⟩
    | some (k, r2) =>
      match scanSetU '\n' (r2.dropWhile isSpace) with
      | none => ⟨2, c, k, []⟩
      | some (v, _) => ⟨3, c, k, v⟩

/-- handle_command of servidor.c.  A failed or zero-byte read calls
exit(EXIT_FAILURE); a SET on a valid key whose fopen fails also calls
exit(EXIT_FAILURE).  For the GET branch, the source never NUL-terminates at
the read count (it writes the NUL at the end of the array), so short files
expose indeterminate bytes; the model keeps the read content only. -/
def handle_command (readResult : Option (List Char)) (openOk : Bool) (st : Store) :
    ConnResult × Store :=
  match readResult with
  | none => (.exitProcess, st)
  | some buffer =>
    let r := sscanf3_servidor buffer
    if ¬ clave_valida r.key then (.closed (some (str "ERROR: Clave inválida\n")), st)
    else if r.cmd_str = str "SET" ∧ r.matched = 3 then
      if ¬ openOk then (.exitProcess, st)
      else (.closed (some (str "OK\n")), update st r.key (some (cstr r.value)))
    else if r.cmd_str = str "GET" ∧ 2 ≤ r.matched then
      match st r.key with
      | none => (.closed (some (str "NOTFOUND\n")), st)
      | some content =>
        (.closed (some ((str "OK\n" ++ cstr (content.take (BUFFER_SIZE - 1)) ++ str "\n").take (BUFFER_SIZE - 1))), st)
    else if r.cmd_str = str "DEL" ∧ 2 ≤ r.matched then
      (.closed (some (str "OK\n")), update st r.key none)
    else (.closed (some (str "ERROR: Comando inválido\n")), st)

/-- One result of the write(2) syscall as seen by write_all of server2.c:
interrupted before writing (EINTR), failed with another errno, or wrote
w bytes (0 ≤ w ≤ requested). -/
inductive WriteStep
  | eintr
  | fail
  | ok (w : Nat)
deriving DecidableEq, Repr

/-- The retry loop of write_all of server2.c, driven by the trace of
syscall results the environment produces.  n is the number of bytes still
to write; the loop exits with len when n reaches zero and with -1 on a
non-EINTR failure.  none means the finite trace was exhausted while the
loop still needed to write (a modelling artifact, not a code path). -/
def write_all_go (len : Nat) : List WriteStep → Nat → Option Int
  | _, 0 => some (Int.ofNat len)
  | [], _ + 1 => none
  | .eintr :: t, n + 1 => write_all_go len t (n + 1)
  | .fail :: _, _ + 1 => some (-1)
  | .ok w :: t, n + 1 => write_all_go len t (n + 1 - w)

/-- write_all of server2.c: write len bytes, retrying on EINTR. -/
def write_all (len : Nat) (trace : List WriteStep) : Option Int :=
  write_all_go len trace len

/-- Number of bytes the write loop actually delivers to the socket before
stopping, for a given trace and remaining count. -/
def delivered : List WriteStep → Nat → Nat
  | _, 0 => 0
  | [], _ + 1 => 0
  | .eintr :: t, n + 1 => delivered t (n + 1)
  | .fail :: _, _ + 1 => 0
  | .ok w :: t, n + 1 => min w (n + 1) + delivered t (n + 1 - w)

/-- Environment outcome of one accept call in the main loop of server2.c:
a client connection (with the environment facts its handling needs), an
accept interrupted by a signal (sigDuring tells whether that signal was
SIGINT, i.e. whether g_stop is set when the loop re-checks it), or another
accept failure. -/
inductive AcceptRes
  | client (readResult : Option (List Char)) (openOk : Bool)
  | eintr (sigDuring : Bool)
  | otherErr
deriving DecidableEq, Repr

/-- One iteration of the accept loop: whether SIGINT was delivered before
the top-of-loop check of g_stop, and what accept returned. -/
structure Iter where
  sigBefore : Bool
  res : AcceptRes
deriving DecidableEq, Repr

/-- Result of running the accept loop of server2.c main over a finite
trace: shutdown means the loop was exited (g_stop observed), running means
the trace was exhausted with the loop still accepting.  handled counts the
client connections served to completion. -/
inductive LoopRes
  | shutdown (handled : Nat)
  | running (handled : Nat)
deriving DecidableEq, Repr

/-- The accept loop of server2.c main.  g_stop is checked at the top of
the loop (a signal delivered earlier shows up as sigBefore) and, after an
accept interrupted by a signal, in the errno == EINTR && g_stop branch.
An accepted connection is handed to handle_client and fully served before
the loop re-checks anything. -/
def server_loop (st : Store) (handled : Nat) : List Iter → LoopRes × Store
  | [] => (.running handled, st)
  | it :: rest =>
    if it.sigBefore then (.shutdown handled, st)
    else
      match it.res with
      | .client rr ok =>
        let p := handle_client rr ok st
        server_loop p.2 (handled + 1) rest
      | .eintr sigd =>
        if sigd then (.shutdown handled, st) else server_loop st handled rest
      | .otherErr => server_loop st handled rest

/-- Exit code of the server2.c process for a given loop trace: after the
loop exits, main closes the listening socket, prints the shutdown line and
returns 0.  none means the process is still serving. -/
def server_main (st : Store) (trace : List Iter) : Option Nat :=
  match server_loop st 0 trace with
  | (.shutdown _, _) => some 0
  | (.running _, _) => none

/-- Whether this iteration makes the loop observe the shutdown flag: either
at the top-of-loop check or at the post-EINTR check. -/
def iterStops (it : Iter) : Bool :=
  it.sigBefore ||
    (match it.res with
     | .eintr sigd => sigd
     | _ => false)

/-- Whether this iteration accepts a client connection. -/
def isClient (it : Iter) : Bool :=
  match it.res with
  | .client _ _ => true
  | _ => false

/-- Number of client connections in a trace. -/
def numClients (trace : List Iter) : Nat := (trace.filter isClient).length

/-- The four parse outcomes named by the specification. -/
inductive SpecParseError
  | empty
  | unknownCommand
  | missingKey
  | missingValue
deriving DecidableEq, Repr

/-- Specification-side classification of parse outcomes, following the
words of the spec (section 4.2), stated over the input buffer itself:
zero tokens read; first token not exactly SET, GET or DEL (the first token
here is the full whitespace-delimited token, untruncated); GET or DEL with
no key token present; SET with no value captured; otherwise success. -/
def spec_classify (buffer : List Char) : Option SpecParseError :=
  let s1 := (cstr buffer).dropWhile isSpace
  if s1 = [] then some .empty
  else
    let t1 := s1.takeWhile (fun c => !isSpace c)
    if ¬ (t1 = str "SET" ∨ t1 = str "GET" ∨ t1 = str "DEL") then some .unknownCommand
    else
      let r2 := (s1.drop t1.length).dropWhile isSpace
      if (t1 = str "GET" ∨ t1 = str "DEL") ∧ r2 = [] then some .missingKey
      else
        let k := (r2.takeWhile (fun c => !isSpace c)).take 99
        if t1 = str "SET" ∧ (r2.drop k.length).dropWhile isSpace = [] then some .missingValue
        else none



theorem clave_valida_false_of {k : List Char}
    (h : k = [] ∨ ∃ c ∈ k, c = '/' ∨ c = '\\' ∨ c = '.' ∨ c = ' ') :
    clave_valida k = false := by
  rcases h with h | ⟨c, hc, hbadc⟩
  · simp [clave_valida, h]
  · simp only [clave_valida, Bool.and_eq_false_iff]
    right
    rw [List.all_eq_false]
    refine ⟨c, hc, ?_⟩
    simp only [Bool.not_eq_true', Bool.not_eq_false, Bool.or_eq_true, beq_iff_eq]
    tauto

/-- C1: dispatching SET, GET or DEL with a key that is empty or contains a
slash, backslash, dot or space yields the invalid-key response and performs
no storage operation: the store is returned unchanged, and the response is
the same for every store and every fopen outcome, so no file is opened,
written, read or removed. -/
theorem c1_invalid_key_no_storage (openOk : Bool) (st : Store) (req : Request)
    (hcmd : req.cmd = Command.CMD_SET ∨ req.cmd = Command.CMD_GET ∨ req.cmd = Command.CMD_DEL)
    (hbad : req.key = [] ∨ ∃ c ∈ req.key, c = '/' ∨ c = '\\' ∨ c = '.' ∨ c = ' ') :
    run_request openOk req st = (str "ERROR: Clave invalida\n", st) := by
  have hv : clave_valida req.key = false := clave_valida_false_of hbad
  rcases hcmd with h | h | h <;>
    simp [run_request, h, handle_set, handle_get, handle_del, hv]

theorem c1_witness :
    run_request true ⟨Command.CMD_GET, str "a.b", []⟩ (fun _ => none)
      = (str "ERROR: Clave invalida\n", fun _ => none) :=
  c1_invalid_key_no_storage true (fun _ => none) ⟨Command.CMD_GET, str "a.b", []⟩
    (Or.inr (Or.inl rfl)) (Or.inr ⟨'.', by decide, by decide⟩)

/-- C2: for a valid key and a value of length at most BUFFER_SIZE - 5 with
no embedded NUL byte, dispatching SET and then GET on that key answers OK
and then OK followed by the byte-identical value, newline-terminated. -/
theorem c2_set_get_roundtrip (st : Store) (key value g : List Char)
    (hk : clave_valida key = true)
    (hlen : value.length ≤ BUFFER_SIZE - 5)
    (hnul : ∀ c ∈ value, c ≠ NUL) :
    (run_request true ⟨Command.CMD_SET, key, value⟩ st).1 = str "OK\n" ∧
    (run_request true ⟨Command.CMD_GET, key, g⟩
        (run_request true ⟨Command.CMD_SET, key, value⟩ st).2).1
      = str "OK\n" ++ value ++ str "\n" := by
  have hlen' : value.length ≤ 1019 := by simpa [BUFFER_SIZE] using hlen
  have hcv : cstr value = value := by
    rw [cstr, List.takeWhile_eq_self_iff]
    intro x hx
    simpa using hnul x hx
  constructor
  · simp [run_request, handle_set, hk]
  · simp only [run_request, handle_set, hk, Bool.not_eq_true, if_neg, Bool.true_eq_false,
      not_false_eq_true, if_pos, handle_get]
    simp [handle_get, hk, update, hcv, BUFFER_SIZE]
    rw [List.take_of_length_le (show value.length ≤ 1023 by omega), hcv,
        List.take_of_length_le hlen']
    rw [List.take_of_length_le (by simp [str]; omega)]

theorem c2_witness :
    (run_request true ⟨Command.CMD_SET, str "greeting", str "hello world"⟩ (fun _ => none)).1
        = str "OK\n" ∧
    (run_request true ⟨Command.CMD_GET, str "greeting", []⟩
        (run_request true ⟨Command.CMD_SET, str "greeting", str "hello world"⟩ (fun _ => none)).2).1
      = str "OK\n" ++ str "hello world" ++ str "\n" :=
  c2_set_get_roundtrip (fun _ => none) (str "greeting") (str "hello world") []
    (by decide) (by decide) (by decide)

/-- C6: DEL on a valid key always answers OK whatever the store holds;
DEL twice in succession answers OK both times, and a GET on that key
afterwards answers NOTFOUND. -/
theorem c6_del_idempotent (st : Store) (key v1 v2 g : List Char)
    (hk : clave_valida key = true) :
    (run_request true ⟨Command.CMD_DEL, key, v1⟩ st).1 = str "OK\n" ∧
    (run_request true ⟨Command.CMD_DEL, key, v2⟩
        (run_request true ⟨Command.CMD_DEL, key, v1⟩ st).2).1 = str "OK\n" ∧
    (run_request true ⟨Command.CMD_GET, key, g⟩
        (run_request true ⟨Command.CMD_DEL, key, v2⟩
          (run_request true ⟨Command.CMD_DEL, key, v1⟩ st).2).2).1
      = str "NOTFOUND\n" := by
  refine ⟨?_, ?_, ?_⟩ <;> simp [run_request, handle_del, handle_get, hk, update]

theorem c6_witness :
    (run_request true ⟨Command.CMD_DEL, str "greeting", []⟩ (fun _ => some (str "x"))).1
        = str "OK\n" ∧
    (run_request true ⟨Command.CMD_DEL, str "greeting", []⟩
        (run_request true ⟨Command.CMD_DEL, str "greeting", []⟩ (fun _ => some (str "x"))).2).1
        = str "OK\n" ∧
    (run_request true ⟨Command.CMD_GET, str "greeting", []⟩
        (run_request true ⟨Command.CMD_DEL, str "greeting", []⟩
          (run_request true ⟨Command.CMD_DEL, str "greeting", []⟩ (fun _ => some (str "x"))).2).2).1
      = str "NOTFOUND\n" :=
  c6_del_idempotent (fun _ => some (str "x")) (str "greeting") [] [] [] (by decide)



theorem parse_request_error_codes {b : List Char} {code : Int}
    (h : parse_request b = .error code) :
    code = -2 ∨ code = -3 ∨ code = -4 ∨ code = -5 := by
  simp only [parse_request] at h
  split at h
  · injection h with h
    omega
  · split at h
    · injection h with h
      omega
    · split at h
      · injection h with h
        omega
      · split at h
        · injection h with h
          omega
        · cases h

/-- C4 counterexample: empty input and an unknown command token receive the
SAME response from server2.c handle_client, "ERROR: Comando invalido", so
the response for empty input is not distinct from the unknown-command one
and at most three distinct parse-failure messages are reachable. -/
theorem c4_counterexample :
    (handle_client (some (str "")) true (fun _ => none)).1
        = ConnResult.closed (some (str "ERROR: Comando invalido\n")) ∧
    (handle_client (some (str "FOO")) true (fun _ => none)).1
        = ConnResult.closed (some (str "ERROR: Comando invalido\n")) ∧
    (handle_client (some (str "")) true (fun _ => none)).1
        = (handle_client (some (str "FOO")) true (fun _ => none)).1 := by
  refine ⟨?_, ?_, ?_⟩ <;> rfl

/-- C4 (amended): on parse failure handle_client writes the message selected
by the parse error code; the reachable codes are exactly -2, -3, -4, -5,
and they map to three pairwise-distinct messages: empty input (-2) and
unknown command (-3) share "ERROR: Comando invalido", missing key (-4) gets
"ERROR: Falta clave", missing value (-5) gets "ERROR: Falta valor"; the
fourth message "ERROR: Formato invalido" is selected by no reachable code. -/
theorem c4_parse_failure_messages (buffer : List Char) (openOk : Bool) (st : Store)
    (code : Int) (h : parse_request buffer = .error code) :
    handle_client (some buffer) openOk st
        = (ConnResult.closed (some (parse_error_msg code)), st) ∧
    (code = -2 ∨ code = -3 ∨ code = -4 ∨ code = -5) ∧
    parse_error_msg (-2) = parse_error_msg (-3) ∧
    parse_error_msg (-3) ≠ parse_error_msg (-4) ∧
    parse_error_msg (-3) ≠ parse_error_msg (-5) ∧
    parse_error_msg (-4) ≠ parse_error_msg (-5) := by
  refine ⟨?_, parse_request_error_codes h, by decide, by decide, by decide, by decide⟩
  simp [handle_client, h]

theorem c4_witness :
    handle_client (some (str "GET")) true (fun _ => none)
      = (ConnResult.closed (some (parse_error_msg (-4))), fun _ => none) :=
  (c4_parse_failure_messages (str "GET") true (fun _ => none) (-4) (by rfl)).1

/-- C5 counterexample: in servidor.c, a failed or zero-byte initial read
terminates the whole server process, and so does a SET on a valid key whose
storage open fails — both contradicting the claim that no connection or
storage error is fatal to the server process. -/
theorem c5_counterexample :
    (handle_command none true (fun _ => none)).1 = ConnResult.exitProcess ∧
    (handle_command (some (str "SET k v")) false (fun _ => none)).1
      = ConnResult.exitProcess := by
  refine ⟨rfl, ?_⟩
  rfl

/-- C5 (amended): in server2.c no protocol, validation, storage or
connection error terminates the process: handle_client never reaches an
exit, a failed initial read closes the connection without any response and
without touching the store, and a SET on a valid key whose storage open
fails is recovered into the textual response "ERROR: No se pudo crear". -/
theorem c5_server2_no_fatal (rr : Option (List Char)) (openOk : Bool) (st : Store) :
    (handle_client rr openOk st).1 ≠ ConnResult.exitProcess ∧
    (rr = none → handle_client rr openOk st = (ConnResult.closed none, st)) ∧
    (∀ key v, clave_valida key = true →
      run_request false ⟨Command.CMD_SET, key, v⟩ st
        = (str "ERROR: No se pudo crear\n", st)) := by
  refine ⟨?_, ?_, ?_⟩
  · cases rr with
    | none => simp [handle_client]
    | some buffer =>
      cases h : parse_request buffer with
      | error code => simp [handle_client, h]
      | ok req => simp [handle_client, h]
  · intro h
    subst h
    rfl
  · intro key v hk
    simp [run_request, handle_set, hk]

theorem c5_witness :
    handle_client none true (fun _ => none) = (ConnResult.closed none, fun _ => none) ∧
    run_request false ⟨Command.CMD_SET, str "k", str "v"⟩ (fun _ => none)
      = (str "ERROR: No se pudo crear\n", fun _ => none) :=
  ⟨(c5_server2_no_fatal none true (fun _ => none)).2.1 rfl,
   (c5_server2_no_fatal none true (fun _ => none)).2.2 (str "k") (str "v") (by decide)⟩

/-- C8: the response write loop resumes after an interrupted write (EINTR),
returns the error value -1 on any other write failure, and returns the
success value len only when the delivered byte count equals everything that
remained to be written — a partial write is never silently dropped. -/
theorem c8_write_all_loop :
    (∀ len (t : List WriteStep) n, 0 < n →
        write_all_go len (WriteStep.eintr :: t) n = write_all_go len t n) ∧
    (∀ len (t : List WriteStep) n, 0 < n →
        write_all_go len (WriteStep.fail :: t) n = some (-1)) ∧
    (∀ len (t : List WriteStep) n,
        write_all_go len t n = some (Int.ofNat len) → delivered t n = n) ∧
    (∀ len (t : List WriteStep),
        write_all len t = some (Int.ofNat len) → delivered t len = len) := by
  have key : ∀ (t : List WriteStep) len n,
      write_all_go len t n = some (Int.ofNat len) → delivered t n = n := by
    intro t
    induction t with
    | nil =>
      intro len n h
      cases n with
      | zero => simp [delivered]
      | succ m => simp [write_all_go] at h
    | cons s t ih =>
      intro len n h
      cases n with
      | zero => simp [delivered]
      | succ m =>
        cases s with
        | eintr =>
          simp only [write_all_go] at h
          simpa only [delivered] using ih len (m + 1) h
        | fail =>
          simp only [write_all_go, Option.some.injEq] at h
          have h2 : (len : Int) = -1 := by exact_mod_cast h.symm
          exfalso
          omega
        | ok w =>
          simp only [write_all_go] at h
          have := ih len (m + 1 - w) h
          simp only [delivered, this]
          omega
  refine ⟨?_, ?_, fun len t n h => key t len n h, fun len t h => key t len len h⟩
  · intro len t n hn
    cases n with
    | zero => omega
    | succ m => simp only [write_all_go]
  · intro len t n hn
    cases n with
    | zero => omega
    | succ m => simp only [write_all_go]

theorem c8_witness :
    write_all_go 5 (WriteStep.eintr :: [WriteStep.ok 5]) 5
        = write_all_go 5 [WriteStep.ok 5] 5 ∧
    write_all_go 5 [WriteStep.fail] 5 = some (-1) ∧
    delivered [WriteStep.ok 2, WriteStep.ok 3] 5 = 5 ∧
    delivered [WriteStep.ok 2, WriteStep.ok 3] 5 = 5 :=
  ⟨c8_write_all_loop.1 5 [WriteStep.ok 5] 5 (by decide),
   c8_write_all_loop.2.1 5 [] 5 (by decide),
   c8_write_all_loop.2.2.1 5 [WriteStep.ok 2, WriteStep.ok 3] 5 (by decide),
   c8_write_all_loop.2.2.2 5 [WriteStep.ok 2, WriteStep.ok 3] (by decide)⟩


theorem numClients_cons (it : Iter) (l : List Iter) :
    numClients (it :: l) = (if isClient it then 1 else 0) + numClients l := by
  simp only [numClients, List.filter_cons]
  split <;> simp [Nat.add_comm]

theorem server_loop_no_stop (trace : List Iter) :
    ∀ st handled, (∀ it ∈ trace, iterStops it = false) →
      (server_loop st handled trace).1 = LoopRes.running (handled + numClients trace) := by
  induction trace with
  | nil =>
    intro st handled _
    simp [server_loop, numClients]
  | cons it rest ih =>
    intro st handled hno
    have hit : iterStops it = false := hno it (List.mem_cons_self it rest)
    have hrest : ∀ j ∈ rest, iterStops j = false :=
      fun j hj => hno j (List.mem_cons_of_mem it hj)
    have hsig : it.sigBefore = false := by
      simp only [iterStops, Bool.or_eq_false_iff] at hit
      exact hit.1
    rw [numClients_cons]
    cases hres : it.res with
    | client rr ok =>
      simp only [server_loop, hsig, Bool.false_eq_true, if_false, hres]
      rw [ih _ (handled + 1) hrest]
      simp [isClient, hres]
      omega
    | eintr sigd =>
      have hsd : sigd = false := by
        simp only [iterStops, hres, Bool.or_eq_false_iff] at hit
        exact hit.2
      simp only [server_loop, hsig, Bool.false_eq_true, if_false, hres, hsd]
      rw [ih _ handled hrest]
      simp [isClient, hres]
    | otherErr =>
      simp only [server_loop, hsig, Bool.false_eq_true, if_false, hres]
      rw [ih _ handled hrest]
      simp [isClient, hres]

theorem server_loop_stops (pre : List Iter) (it : Iter) (post : List Iter) :
    ∀ st handled, (∀ j ∈ pre, iterStops j = false) → iterStops it = true →
      (server_loop st handled (pre ++ it :: post)).1
        = LoopRes.shutdown (handled + numClients pre) := by
  induction pre with
  | nil =>
    intro st handled _ hstop
    simp only [List.nil_append, numClients, List.filter_nil, List.length_nil, Nat.add_zero]
    by_cases hsig : it.sigBefore
    · simp [server_loop, hsig]
    · have hres : ∃ sigd, it.res = AcceptRes.eintr sigd ∧ sigd = true := by
        simp only [iterStops, Bool.or_eq_true] at hstop
        rcases hstop with h | h
        · exact absurd h hsig
        · cases hr : it.res with
          | client rr ok => rw [hr] at h; cases h
          | eintr sigd => rw [hr] at h; exact ⟨sigd, rfl, h⟩
          | otherErr => rw [hr] at h; cases h
      rcases hres with ⟨sigd, hr, hsd⟩
      simp [server_loop, hsig, hr, hsd]
  | cons j rest ih =>
    intro st handled hno hstop
    have hj : iterStops j = false := hno j (List.mem_cons_self j rest)
    have hrest : ∀ x ∈ rest, iterStops x = false :=
      fun x hx => hno x (List.mem_cons_of_mem j hx)
    have hsig : j.sigBefore = false := by
      simp only [iterStops, Bool.or_eq_false_iff] at hj
      exact hj.1
    rw [numClients_cons]
    cases hres : j.res with
    | client rr ok =>
      simp only [List.cons_append, server_loop, hsig, Bool.false_eq_true, if_false, hres,
        List.append_eq]
      rw [ih _ (handled + 1) hrest hstop]
      simp [isClient, hres]
      omega
    | eintr sigd =>
      have hsd : sigd = false := by
        simp only [iterStops, hres, Bool.or_eq_false_iff] at hj
        exact hj.2
      simp only [List.cons_append, server_loop, hsig, Bool.false_eq_true, if_false, hres, hsd,
        List.append_eq]
      rw [ih _ handled hrest hstop]
      simp [isClient, hres]
    | otherErr =>
      simp only [List.cons_append, server_loop, hsig, Bool.false_eq_true, if_false, hres,
        List.append_eq]
      rw [ih _ handled hrest hstop]
      simp [isClient, hres]

/-- C9: the accept loop exits exactly when the shutdown flag is observed,
either at the top-of-loop check or at the check after an accept interrupted
by a signal.  If no iteration observes the flag, the loop keeps running and
every accepted connection is handled; at the first iteration observing the
flag the loop shuts down, every connection accepted before it having been
handled to completion and nothing after it being processed; and whenever
the loop shuts down the process closes the listening socket and exits with
success status 0. -/
theorem c9_shutdown_flag (st : Store) :
    (∀ trace : List Iter, (∀ it ∈ trace, iterStops it = false) →
        (server_loop st 0 trace).1 = LoopRes.running (numClients trace)) ∧
    (∀ (pre : List Iter) (it : Iter) (post : List Iter),
        (∀ j ∈ pre, iterStops j = false) → iterStops it = true →
        (server_loop st 0 (pre ++ it :: post)).1 = LoopRes.shutdown (numClients pre)) ∧
    (∀ (trace : List Iter) (h : Nat),
        (server_loop st 0 trace).1 = LoopRes.shutdown h → server_main st trace = some 0) := by
  refine ⟨?_, ?_, ?_⟩
  · intro trace hno
    simpa using server_loop_no_stop trace st 0 hno
  · intro pre it post hno hstop
    simpa using server_loop_stops pre it post st 0 hno hstop
  · intro trace h hsh
    unfold server_main
    rcases hsl : server_loop st 0 trace with ⟨res, st2⟩
    rw [hsl] at hsh
    simp only at hsh
    rw [hsh]

theorem c9_witness :
    (server_loop (fun _ => none) 0
        [⟨false, AcceptRes.client (some (str "DEL k")) true⟩,
         ⟨false, AcceptRes.otherErr⟩,
         ⟨false, AcceptRes.eintr true⟩,
         ⟨false, AcceptRes.client none true⟩]).1
      = LoopRes.shutdown 1 ∧
    server_main (fun _ => none)
        [⟨false, AcceptRes.client (some (str "DEL k")) true⟩,
         ⟨false, AcceptRes.otherErr⟩,
         ⟨false, AcceptRes.eintr true⟩,
         ⟨false, AcceptRes.client none true⟩]
      = some 0 := by
  have h1 := (c9_shutdown_flag (fun _ => none)).2.1
      [⟨false, AcceptRes.client (some (str "DEL k")) true⟩, ⟨false, AcceptRes.otherErr⟩]
      ⟨false, AcceptRes.eintr true⟩
      [⟨false, AcceptRes.client none true⟩]
      (by decide) (by decide)
  refine ⟨?_, ?_⟩
  · simpa using h1
  · exact (c9_shutdown_flag (fun _ => none)).2.2 _ 1 (by simpa using h1)


theorem dropWhile_head_not_space {r : List Char} (hne : r.dropWhile isSpace ≠ []) :
    ∃ a x, r.dropWhile isSpace = a :: x ∧ isSpace a = false := by
  obtain ⟨a, x, hax⟩ := List.exists_cons_of_ne_nil hne
  refine ⟨a, x, hax, ?_⟩
  have h2 := List.head?_dropWhile_not isSpace r
  rw [hax] at h2
  simpa using h2

theorem scanToken_none {m : Nat} {s : List Char} (h : s.dropWhile isSpace = []) :
    scanToken m s = none := by
  simp [scanToken, h]

theorem scanToken_some {m : Nat} {s s1 : List Char}
    (hs1 : s.dropWhile isSpace = s1) (hne : s1 ≠ []) :
    scanToken m s = some ((s1.takeWhile (fun c => !isSpace c)).take m,
      s1.drop ((s1.takeWhile (fun c => !isSpace c)).take m).length) := by
  simp only [scanToken, hs1, if_neg hne]

theorem scanSet_dropWhile_space_some {m : Nat} {r x : List Char} (hm : 0 < m)
    (hx : r.dropWhile isSpace = x) (hne : x ≠ []) :
    scanSet m '\n' x = some ((x.takeWhile (fun c => c ≠ '\n')).take m,
      x.drop ((x.takeWhile (fun c => c ≠ '\n')).take m).length) := by
  have hcons : ∃ a y, x = a :: y ∧ isSpace a = false := by
    subst hx
    exact dropWhile_head_not_space hne
  obtain ⟨a, y, hay, ha⟩ := hcons
  have hanl : a ≠ '\n' := by
    intro he
    rw [he] at ha
    simp [isSpace] at ha
  have htk : (x.takeWhile (fun c => c ≠ '\n')).take m ≠ [] := by
    rw [hay, List.takeWhile_cons_of_pos (by simp [hanl])]
    cases m with
    | zero => exact absurd hm (by omega)
    | succ mm => simp
  simp only [scanSet, if_neg htk]

theorem sscanf3_eq0 {b : List Char} (h1 : (cstr b).dropWhile isSpace = []) :
    sscanf3 b = ⟨0, [], [], []⟩ := by
  simp [sscanf3, scanToken_none (m := 9) h1]

theorem sscanf3_eq1 {b s1 : List Char}
    (hs1 : (cstr b).dropWhile isSpace = s1) (h1 : s1 ≠ [])
    (h2 : ((s1.drop ((s1.takeWhile (fun c => !isSpace c)).take 9).length).dropWhile isSpace) = []) :
    sscanf3 b = ⟨1, (s1.takeWhile (fun c => !isSpace c)).take 9, [], []⟩ := by
  unfold sscanf3
  dsimp only
  rw [scanToken_some (m := 9) hs1 h1]
  dsimp only
  rw [scanToken_none (m := 99) h2]

theorem sscanf3_eq2 {b s1 r2 : List Char}
    (hs1 : (cstr b).dropWhile isSpace = s1) (h1 : s1 ≠ [])
    (hr2 : ((s1.drop ((s1.takeWhile (fun c => !isSpace c)).take 9).length).dropWhile isSpace) = r2)
    (h2 : r2 ≠ [])
    (h3 : ((r2.drop ((r2.takeWhile (fun c => !isSpace c)).take 99).length).dropWhile isSpace) = []) :
    sscanf3 b = ⟨2, (s1.takeWhile (fun c => !isSpace c)).take 9,
      (r2.takeWhile (fun c => !isSpace c)).take 99, []⟩ := by
  unfold sscanf3
  dsimp only
  rw [scanToken_some (m := 9) hs1 h1]
  dsimp only
  rw [scanToken_some (m := 99) hr2 h2]
  dsimp only
  rw [h3]
  simp [scanSet]

theorem sscanf3_eq3 {b s1 r2 v1 : List Char}
    (hs1 : (cstr b).dropWhile isSpace = s1) (h1 : s1 ≠ [])
    (hr2 : ((s1.drop ((s1.takeWhile (fun c => !isSpace c)).take 9).length).dropWhile isSpace) = r2)
    (h2 : r2 ≠ [])
    (hv1 : ((r2.drop ((r2.takeWhile (fun c => !isSpace c)).take 99).length).dropWhile isSpace) = v1)
    (h3 : v1 ≠ []) :
    sscanf3 b = ⟨3, (s1.takeWhile (fun c => !isSpace c)).take 9,
      (r2.takeWhile (fun c => !isSpace c)).take 99,
      (v1.takeWhile (fun c => c ≠ '\n')).take 1023⟩ := by
  unfold sscanf3
  dsimp only
  rw [scanToken_some (m := 9) hs1 h1]
  dsimp only
  rw [scanToken_some (m := 99) hr2 h2]
  dsimp only
  rw [hv1, scanSet_dropWhile_space_some (m := 1023) (by omega) hv1 h3]

theorem take_eq_of_length_lt {l w : List Char} {n : Nat} (hw : w.length < n) :
    l.take n = w ↔ l = w := by
  constructor
  · intro h
    rcases Nat.lt_or_ge l.length n with hl | hl
    · rwa [List.take_of_length_le (Nat.le_of_lt hl)] at h
    · exfalso
      have hlen : (l.take n).length = n := by
        rw [List.length_take]
        omega
      rw [h] at hlen
      omega
  · intro h
    subst h
    exact List.take_of_length_le (Nat.le_of_lt hw)

theorem parse_cmd_take9 (t1 : List Char) : parse_cmd (t1.take 9) = parse_cmd t1 := by
  unfold parse_cmd
  simp only [take_eq_of_length_lt (show (str "SET").length < 9 by decide),
    take_eq_of_length_lt (show (str "GET").length < 9 by decide),
    take_eq_of_length_lt (show (str "DEL").length < 9 by decide)]

theorem parse_request_shape (b : List Char) :
    parse_request b =
      (let s1 := (cstr b).dropWhile isSpace
       let t := (s1.takeWhile (fun c => !isSpace c)).take 9
       let cmd := parse_cmd t
       let r2 := (s1.drop t.length).dropWhile isSpace
       let k := (r2.takeWhile (fun c => !isSpace c)).take 99
       let v1 := (r2.drop k.length).dropWhile isSpace
       if s1 = [] then Except.error (-2)
       else if cmd = Command.CMD_INVALID then Except.error (-3)
       else if (cmd = Command.CMD_GET ∨ cmd = Command.CMD_DEL) ∧ r2 = [] then Except.error (-4)
       else if cmd = Command.CMD_SET ∧ v1 = [] then Except.error (-5)
       else Except.ok ⟨cmd, k, (v1.takeWhile (fun c => c ≠ '\n')).take 1023⟩) := by
  by_cases h1 : (cstr b).dropWhile isSpace = []
  · simp [parse_request, sscanf3_eq0 h1, h1]
  · rw [parse_request]
    dsimp only
    generalize hS1 : (cstr b).dropWhile isSpace = S1 at h1 ⊢
    by_cases h2 : ((S1.drop ((S1.takeWhile (fun c => !isSpace c)).take 9).length).dropWhile
        isSpace) = []
    · rw [sscanf3_eq1 hS1 h1 h2, h2]
      cases hc : parse_cmd ((S1.takeWhile (fun c => !isSpace c)).take 9) <;> simp [hc, h1]
    · generalize hR2 : ((S1.drop ((S1.takeWhile (fun c => !isSpace c)).take 9).length).dropWhile
        isSpace) = R2 at h2 ⊢
      by_cases h3 : ((R2.drop ((R2.takeWhile (fun c => !isSpace c)).take 99).length).dropWhile
          isSpace) = []
      · rw [sscanf3_eq2 hS1 h1 hR2 h2 h3, h3]
        cases hc : parse_cmd ((S1.takeWhile (fun c => !isSpace c)).take 9) <;> simp [hc, h1, h2]
      · generalize hV1 : ((R2.drop ((R2.takeWhile (fun c => !isSpace c)).take 99).length).dropWhile
          isSpace) = V1 at h3 ⊢
        rw [sscanf3_eq3 hS1 h1 hR2 h2 hV1 h3]
        cases hc : parse_cmd ((S1.takeWhile (fun c => !isSpace c)).take 9) <;> simp [hc, h1, h2, h3]


/-- C3: the parser realizes exactly the five spec outcomes in the spec's
order of evaluation: Empty when zero tokens are read, UnknownCommand when
the first (untruncated) token is not exactly SET, GET or DEL, MissingKey
when the command is GET or DEL and no key token follows, MissingValue when
the command is SET and no value is captured, and success otherwise. -/
theorem c3_parse_outcomes (b : List Char) :
    (parse_request b = Except.error (-2) ↔ spec_classify b = some SpecParseError.empty) ∧
    (parse_request b = Except.error (-3) ↔ spec_classify b = some SpecParseError.unknownCommand) ∧
    (parse_request b = Except.error (-4) ↔ spec_classify b = some SpecParseError.missingKey) ∧
    (parse_request b = Except.error (-5) ↔ spec_classify b = some SpecParseError.missingValue) ∧
    ((∃ req, parse_request b = Except.ok req) ↔ spec_classify b = none) := by
  have e1 : (str "SET").take 9 = str "SET" := rfl
  have e2 : (str "GET").take 9 = str "GET" := rfl
  have e3 : (str "DEL").take 9 = str "DEL" := rfl
  have dSG : ¬(str "SET" = str "GET") := by decide
  have dSD : ¬(str "SET" = str "DEL") := by decide
  have dGS : ¬(str "GET" = str "SET") := by decide
  have dGD : ¬(str "GET" = str "DEL") := by decide
  have dDS : ¬(str "DEL" = str "SET") := by decide
  have dDG : ¬(str "DEL" = str "GET") := by decide
  have pSET : parse_cmd (str "SET") = Command.CMD_SET := rfl
  have pGET : parse_cmd (str "GET") = Command.CMD_GET := rfl
  have pDEL : parse_cmd (str "DEL") = Command.CMD_DEL := rfl
  rw [parse_request_shape, spec_classify]
  by_cases h1 : (cstr b).dropWhile isSpace = []
  · simp [h1]
  · dsimp only
    generalize hS1 : (cstr b).dropWhile isSpace = S1 at h1 ⊢
    set T1 := S1.takeWhile (fun c => !isSpace c) with hT1
    by_cases hset : T1 = str "SET"
    · rw [hset, e1]
      generalize hR : (S1.drop (str "SET").length).dropWhile isSpace = R2
      generalize hV : (R2.drop ((R2.takeWhile (fun c => !isSpace c)).take 99).length).dropWhile
        isSpace = V1
      by_cases hv : V1 = []
      · simp [pSET, hv, h1, dSG, dSD]
      · simp [pSET, hv, h1, dSG, dSD]
    · by_cases hget : T1 = str "GET"
      · rw [hget, e2]
        generalize hR : (S1.drop (str "GET").length).dropWhile isSpace = R2
        by_cases hr2 : R2 = []
        · simp [pGET, hr2, h1, dGS, dGD]
        · simp [pGET, hr2, h1, dGS, dGD]
      · by_cases hdel : T1 = str "DEL"
        · rw [hdel, e3]
          generalize hR : (S1.drop (str "DEL").length).dropWhile isSpace = R2
          by_cases hr2 : R2 = []
          · simp [pDEL, hr2, h1, dDS, dDG]
          · simp [pDEL, hr2, h1, dDS, dDG]
        · have hcmd : parse_cmd (T1.take 9) = Command.CMD_INVALID := by
            rw [parse_cmd_take9]
            simp [parse_cmd, hset, hget, hdel]
          simp [hcmd, hset, hget, hdel, h1]

theorem c3_witness : parse_request (str "DEL") = Except.error (-4) :=
  (c3_parse_outcomes (str "DEL")).2.2.1.mpr (by rfl)


theorem mem_cstr_ne_nul {b : List Char} {c : Char} (hc : c ∈ cstr b) : c ≠ NUL := by
  have := List.mem_takeWhile_imp hc
  simpa using this

theorem key_token_facts {r : List Char} (hne : r.dropWhile isSpace ≠ []) :
    ((r.dropWhile isSpace).takeWhile (fun c => !isSpace c)).take 99 ≠ [] ∧
    (((r.dropWhile isSpace).takeWhile (fun c => !isSpace c)).take 99).length ≤ 99 ∧
    (∀ c ∈ ((r.dropWhile isSpace).takeWhile (fun c => !isSpace c)).take 99,
      isSpace c = false ∧ c ∈ r) := by
  obtain ⟨a, x, hax, ha⟩ := dropWhile_head_not_space hne
  refine ⟨?_, List.length_take_le _ _, ?_⟩
  · rw [hax, List.takeWhile_cons_of_pos (by simp [ha])]
    simp
  · intro c hc
    have hc1 : c ∈ (r.dropWhile isSpace).takeWhile (fun c => !isSpace c) :=
      List.take_subset _ _ hc
    have hc2 : isSpace c = false := by
      have := List.mem_takeWhile_imp hc1
      simpa using this
    have hc3 : c ∈ r.dropWhile isSpace := (List.takeWhile_sublist _).subset hc1
    exact ⟨hc2, (List.dropWhile_sublist _).subset hc3⟩

/-- C10: every Request produced by a successful parse has a key that is
non-empty, at most 99 bytes, and free of whitespace and NUL bytes; hence
when the validator rejects such a key it can only be because of a slash,
backslash or dot — the space-rejection branch (and the empty-key branch)
of clave_valida are unreachable for parsed requests. -/
theorem c10_parsed_key_invariant (b : List Char) (req : Request)
    (h : parse_request b = Except.ok req) :
    req.key ≠ [] ∧ req.key.length ≤ 99 ∧ (∀ c ∈ req.key, isSpace c = false) ∧
    (∀ c ∈ req.key, c ≠ NUL) ∧
    (clave_valida req.key = false → ∃ c ∈ req.key, c = '/' ∨ c = '\\' ∨ c = '.') := by
  rw [parse_request_shape] at h
  dsimp only at h
  split_ifs at h with h1 h2 h3 h4
  -- the error branches are closed by split_ifs; only the success branch remains
  injection h with h
  subst h
  -- the key scan ran on a non-empty rest of input
  have hr2ne : ((((cstr b).dropWhile isSpace).drop
      ((((cstr b).dropWhile isSpace).takeWhile (fun c => !isSpace c)).take 9).length).dropWhile
        isSpace) ≠ [] := by
    intro he
    rcases hcm : parse_cmd ((((cstr b).dropWhile isSpace).takeWhile
        (fun c => !isSpace c)).take 9) with _ | _ | _ | _
    · exact h2 hcm
    · refine h4 ⟨hcm, ?_⟩
      rw [he]
      simp
    · exact h3 ⟨Or.inl hcm, he⟩
    · exact h3 ⟨Or.inr hcm, he⟩
  obtain ⟨hkne, hklen, hkmem⟩ := key_token_facts hr2ne
  refine ⟨hkne, hklen, fun c hc => (hkmem c hc).1, ?_, ?_⟩
  · intro c hc
    have hcr : c ∈ ((cstr b).dropWhile isSpace).drop
        ((((cstr b).dropWhile isSpace).takeWhile (fun c => !isSpace c)).take 9).length :=
      (hkmem c hc).2
    have hcs1 : c ∈ (cstr b).dropWhile isSpace := List.drop_subset _ _ hcr
    exact mem_cstr_ne_nul ((List.dropWhile_sublist _).subset hcs1)
  · intro hcv
    simp only [clave_valida, Bool.and_eq_false_iff] at hcv
    rcases hcv with hcv | hcv
    · exfalso
      apply hkne
      simpa using hcv
    · rw [List.all_eq_false] at hcv
      obtain ⟨c, hc, hbad⟩ := hcv
      simp only [Bool.not_eq_true', Bool.not_eq_false, Bool.or_eq_true, beq_iff_eq] at hbad
      refine ⟨c, hc, ?_⟩
      have hs : isSpace c = false := (hkmem c hc).1
      have hcsp : c ≠ ' ' := by
        intro he
        rw [he] at hs
        simp [isSpace] at hs
      rcases hbad with ((hb | hb) | hb) | hb
      · exact Or.inl hb
      · exact Or.inr (Or.inl hb)
      · exact Or.inr (Or.inr hb)
      · exact absurd hb hcsp

theorem c10_witness :
    (⟨Command.CMD_DEL, str "k", []⟩ : Request).key ≠ [] ∧
    (⟨Command.CMD_DEL, str "k", []⟩ : Request).key.length ≤ 99 ∧
    (∀ c ∈ (⟨Command.CMD_DEL, str "k", []⟩ : Request).key, isSpace c = false) ∧
    (∀ c ∈ (⟨Command.CMD_DEL, str "k", []⟩ : Request).key, c ≠ NUL) ∧
    (clave_valida (⟨Command.CMD_DEL, str "k", []⟩ : Request).key = false →
      ∃ c ∈ (⟨Command.CMD_DEL, str "k", []⟩ : Request).key, c = '/' ∨ c = '\\' ∨ c = '.') :=
  c10_parsed_key_invariant (str "DEL k") ⟨Command.CMD_DEL, str "k", []⟩ (by rfl)


theorem sscanf3_bounds (b : List Char) :
    (sscanf3 b).cmd_str.length ≤ 9 ∧ (sscanf3 b).key.length ≤ 99 ∧
    (sscanf3 b).value.length ≤ 1023 := by
  by_cases h1 : (cstr b).dropWhile isSpace = []
  · simp [sscanf3_eq0 h1]
  · generalize hS1 : (cstr b).dropWhile isSpace = S1 at h1
    by_cases h2 : ((S1.drop ((S1.takeWhile (fun c => !isSpace c)).take 9).length).dropWhile
        isSpace) = []
    · rw [sscanf3_eq1 hS1 h1 h2]
      exact ⟨List.length_take_le _ _, by simp, by simp⟩
    · generalize hR2 : ((S1.drop ((S1.takeWhile (fun c => !isSpace c)).take 9).length).dropWhile
        isSpace) = R2 at h2
      by_cases h3 : ((R2.drop ((R2.takeWhile (fun c => !isSpace c)).take 99).length).dropWhile
          isSpace) = []
      · rw [sscanf3_eq2 hS1 h1 hR2 h2 h3]
        exact ⟨List.length_take_le _ _, List.length_take_le _ _, by simp⟩
      · rw [sscanf3_eq3 hS1 h1 hR2 h2 rfl h3]
        exact ⟨List.length_take_le _ _, List.length_take_le _ _, List.length_take_le _ _⟩

/-- C7 counterexample: for the input SET followed by a 100-byte key token
and the value v, the parser truncates the key at 99 bytes but the excess
key byte is NOT discarded: it reappears as the first byte of the value
field, which becomes "k v" instead of "v". -/
theorem c7_counterexample :
    parse_request (str "SET " ++ List.replicate 100 'k' ++ str " v")
      = Except.ok ⟨Command.CMD_SET, List.replicate 99 'k', 'k' :: str " v"⟩ ∧
    'k' :: str " v" ≠ str "v" := ⟨rfl, by decide⟩

/-- C7 (amended): the parser enforces the ceilings of 9 bytes for the
command token, 99 for the key and 1023 for the value, truncating silently
at each boundary, and every field of a successfully parsed Request is
within its ceiling; but the excess bytes of an over-long token are not
discarded: for a SET line whose key token K exceeds 99 bytes, the key
field holds the first 99 bytes of K and the value field starts with the
remaining bytes of K, followed by the separator and the sent value. -/
theorem c7_token_ceilings :
    (∀ b, (sscanf3 b).cmd_str.length ≤ 9 ∧ (sscanf3 b).key.length ≤ 99 ∧
        (sscanf3 b).value.length ≤ 1023) ∧
    (∀ b req, parse_request b = Except.ok req →
        req.key.length ≤ 99 ∧ req.value.length ≤ 1023) ∧
    (∀ K V, K ≠ [] → (∀ c ∈ K, isSpace c = false ∧ c ≠ NUL) → 99 < K.length →
        (∀ c ∈ V, c ≠ '\n' ∧ c ≠ NUL) →
        parse_request ('S' :: 'E' :: 'T' :: ' ' :: (K ++ ' ' :: V))
          = Except.ok ⟨Command.CMD_SET, K.take 99, (K.drop 99 ++ ' ' :: V).take 1023⟩) := by
  refine ⟨sscanf3_bounds, ?_, ?_⟩
  · intro b req h
    rw [parse_request_shape] at h
    dsimp only at h
    split_ifs at h with h1 h2 h3 h4
    injection h with h
    subst h
    exact ⟨List.length_take_le _ _, List.length_take_le _ _⟩
  · intro K V hKne hK hKlen hV
    obtain ⟨a, K1, haK⟩ := List.exists_cons_of_ne_nil hKne
    have haS : isSpace a = false := (hK a (by rw [haK]; exact List.mem_cons_self _ _)).1
    have hcstr : cstr ('S' :: 'E' :: 'T' :: ' ' :: (K ++ ' ' :: V))
        = 'S' :: 'E' :: 'T' :: ' ' :: (K ++ ' ' :: V) := by
      rw [cstr, List.takeWhile_eq_self_iff]
      simp only [List.forall_mem_cons, List.forall_mem_append, decide_eq_true_eq]
      exact ⟨by decide, by decide, by decide, by decide,
        fun c hc => (hK c hc).2, by decide, fun c hc => (hV c hc).2⟩
    have hs1 : List.dropWhile isSpace ('S' :: 'E' :: 'T' :: ' ' :: (K ++ ' ' :: V))
        = 'S' :: 'E' :: 'T' :: ' ' :: (K ++ ' ' :: V) :=
      List.dropWhile_cons_of_neg (by decide)
    have ht1 : List.takeWhile (fun c => !isSpace c) ('S' :: 'E' :: 'T' :: ' ' :: (K ++ ' ' :: V))
        = ['S', 'E', 'T'] := by
      rw [List.takeWhile_cons_of_pos (by decide), List.takeWhile_cons_of_pos (by decide),
        List.takeWhile_cons_of_pos (by decide), List.takeWhile_cons_of_neg (by decide)]
    have hdrop3 : List.drop (List.take 9 ['S', 'E', 'T']).length
        ('S' :: 'E' :: 'T' :: ' ' :: (K ++ ' ' :: V)) = ' ' :: (K ++ ' ' :: V) := rfl
    have hr2 : List.dropWhile isSpace (' ' :: (K ++ ' ' :: V)) = K ++ ' ' :: V := by
      rw [List.dropWhile_cons_of_pos (by decide), haK, List.cons_append,
        List.dropWhile_cons_of_neg (by simp [haS]), ← List.cons_append, ← haK]
    have hk : List.takeWhile (fun c => !isSpace c) (K ++ ' ' :: V) = K := by
      rw [List.takeWhile_append_of_pos (fun c hc => by simp [(hK c hc).1]),
        List.takeWhile_cons_of_neg (by decide)]
      simp
    have hklen : (List.take 99 K).length = 99 := by
      rw [List.length_take]
      omega
    have hr3 : List.drop (List.take 99 K).length (K ++ ' ' :: V)
        = K.drop 99 ++ ' ' :: V := by
      rw [hklen, List.drop_append_eq_append_drop,
        (show 99 - K.length = 0 from by omega), List.drop_zero]
    have hKdne : K.drop 99 ≠ [] := by
      intro he
      have hlen := congrArg List.length he
      simp [List.length_drop] at hlen
      omega
    obtain ⟨d, D, hdD⟩ := List.exists_cons_of_ne_nil hKdne
    have hdK : d ∈ K := List.drop_subset _ _ (by rw [hdD]; exact List.mem_cons_self _ _)
    have hdS : isSpace d = false := (hK d hdK).1
    have hv1 : List.dropWhile isSpace (K.drop 99 ++ ' ' :: V) = K.drop 99 ++ ' ' :: V := by
      rw [hdD, List.cons_append, List.dropWhile_cons_of_neg (by simp [hdS]),
        ← List.cons_append, ← hdD]
    have hv1ne : K.drop 99 ++ ' ' :: V ≠ [] := by
      rw [hdD]
      simp
    have hval : List.takeWhile (fun c => c ≠ '\n') (K.drop 99 ++ ' ' :: V)
        = K.drop 99 ++ ' ' :: V := by
      rw [List.takeWhile_eq_self_iff]
      simp only [List.forall_mem_append, List.forall_mem_cons, decide_eq_true_eq]
      refine ⟨fun c hc => ?_, by decide, fun c hc => (hV c hc).1⟩
      have hcK := List.drop_subset _ _ hc
      have hcS := (hK c hcK).1
      intro he
      rw [he] at hcS
      simp [isSpace] at hcS
    have pc : parse_cmd (List.take 9 ['S', 'E', 'T']) = Command.CMD_SET := rfl
    rw [parse_request_shape]
    dsimp only
    rw [hcstr, hs1, ht1, hdrop3, hr2, hk, hr3, hv1, hval, pc]
    simp [hv1ne]

theorem c7_witness :
    (sscanf3 (str "GET k")).cmd_str.length ≤ 9 ∧
    parse_request ('S' :: 'E' :: 'T' :: ' ' :: (List.replicate 100 'k' ++ ' ' :: ['v']))
      = Except.ok ⟨Command.CMD_SET, (List.replicate 100 'k').take 99,
          ((List.replicate 100 'k').drop 99 ++ ' ' :: ['v']).take 1023⟩ :=
  ⟨(c7_token_ceilings.1 (str "GET k")).1,
   c7_token_ceilings.2.2 (List.replicate 100 'k') ['v']
     (by decide) (by decide) (by decide) (by decide)⟩

end KV
